import Mathlib

/-!
Shallow embedding of the reporting module of the xnmt repository
(`src/xnmt/reports.py` and `src/xnmt/plot.py`), together with theorems
settling the specification claims about it.

Python dictionaries holding report data are modelled as partial maps
`String → Option V`; Python lists as Lean `List`s; an assertion failure or
uncaught exception is modelled by an `Option`/sum result where the failure
case carries no (or partial) output.
-/

namespace Xnmt

/-- The empty string, used as the initial pending-segment accumulator. -/
def emptyStr : String := ""

/-- A newline, the separator of the line-oriented charcut files. -/
def newline : String := "\n"

/-- A Python dict with string keys, modelled as a partial map. -/
def Dict (V : Type) : Type := String → Option V

/-- The empty dict `{}`. -/
def Dict.empty {V : Type} : Dict V := fun _ => none

/-- Python `base.update(upd)`: every key of `upd` overwrites `base`;
keys absent from `upd` keep their `base` value. -/
def Dict.update {V : Type} (base upd : Dict V) : Dict V :=
  fun k => match upd k with
  | some v => some v
  | none => base k

/-- State of a `Reportable` object: its `_sent_info_list` queue
(`reports.py`, `Reportable.__init__`). -/
structure ReportableState (V : Type) where
  sent_info_list : List (Dict V)

/-- Embedding of `Reportable.add_sent_for_report(sent_info)`: appends the record to the
internal ordered queue (`reports.py` lines 45-57). -/
def add_sent_for_report {V : Type} (st : ReportableState V) (sent_info : Dict V) :
    ReportableState V :=
  { st with sent_info_list := st.sent_info_list ++ [sent_info] }

/-- Embedding of `Reportable.on_get_report_input(context)` (`reports.py` lines 59-71).
If the external context is non-empty its length must equal the queue length
(the `assert` on line 64; failure is modelled as `none`); an empty context is
replaced by a fresh list of empty dicts, one per queued record.  Each context
record is updated in place with the corresponding queued record, the queue is
cleared, and the (new) context is returned. -/
def on_get_report_input {V : Type} (st : ReportableState V) (context : List (Dict V)) :
    Option (List (Dict V) × ReportableState V) :=
  if context.length > 0 then
    if context.length = st.sent_info_list.length then
      some (List.zipWith Dict.update context st.sent_info_list, ⟨[]⟩)
    else
      none
  else
    some (List.zipWith Dict.update (List.replicate st.sent_info_list.length Dict.empty)
      st.sent_info_list, ⟨[]⟩)

/-! ## SegmentingHtmlReporter.apply_segmentation (`reports.py` lines 290-306) -/

/-- The `for decision, word in zip(segmentation, words)` loop of
`apply_segmentation`, with the final `if temp: segmented.append((temp, False))`
flush.  `temp` is the pending segment, `acc` the `segmented` list built so far;
Python's `if temp:` truthiness is non-emptiness of the string. -/
def segmentLoop : List (Int × String) → String → List (String × Bool) → List (String × Bool)
  | [], temp, acc => if temp ≠ "" then acc ++ [(temp, false)] else acc
  | (decision, word) :: rest, temp, acc =>
    if decision = 0 then
      segmentLoop rest (temp ++ word) acc
    else if decision = 1 then
      segmentLoop rest emptyStr (acc ++ [(temp ++ word, false)])
    else
      segmentLoop rest emptyStr
        ((if temp ≠ "" then acc ++ [(temp, false)] else acc) ++ [(word, true)])

/-- Embedding of `SegmentingHtmlReporter.apply_segmentation(words, segmentation)`: the
`assert(len(words) == len(segmentation))` on line 291 is modelled as `none` on
failure; otherwise the loop runs over `zip(segmentation, words)`. -/
def apply_segmentation (words : List String) (segmentation : List Int) :
    Option (List (String × Bool)) :=
  if words.length = segmentation.length then
    some (segmentLoop (segmentation.zip words) emptyStr [])
  else
    none

/-- The segmentation semantics as the spec words it, written independently of
the source loop: decision 0 accumulates the token into the pending segment;
decision 1 appends the token and emits the pending segment as non-deleted; any
other decision first emits a non-empty pending segment unmarked and then emits
the token as deleted; at the end a non-empty pending segment is flushed as
non-deleted. -/
def specSegment : List String → List Int → String → List (String × Bool)
  | word :: ws, d :: ds, pending =>
    if d = 0 then
      specSegment ws ds (pending ++ word)
    else if d = 1 then
      (pending ++ word, false) :: specSegment ws ds emptyStr
    else
      (if pending = "" then [] else [(pending, false)]) ++
        (word, true) :: specSegment ws ds emptyStr
  | _, _, pending => if pending = "" then [] else [(pending, false)]

/-! ## HtmlReporter (`reports.py` lines 148-177) -/

/-- An lxml `etree` element: tag, attributes, optional text, children. -/
inductive Element where
  | mk (tag : String) (attrs : List (String × String)) (text : Option String)
       (children : List Element)

/-- Serialization of an attribute list, ` key="value"` per attribute. -/
def renderAttrs (attrs : List (String × String)) : String :=
  String.join (attrs.map (fun kv => " " ++ kv.1 ++ "=\x22" ++ kv.2 ++ "\x22"))

/-- Modelled from the spec: serialization of the accumulated tree as performed
by the third-party `etree.tostring` call in `write_html_tree` (lxml is not part
of this repository).  Renders an element as an open tag with its attributes,
its text, its children in order, and a closing tag; the whitespace that lxml's
pretty-printing inserts is not reproduced. -/
def Element.render : Element → String
  | .mk tag attrs text children =>
    "<" ++ tag ++ renderAttrs attrs ++ ">" ++ text.getD emptyStr ++
      String.join (children.attach.map (fun c => Element.render c.1)) ++
      "</" ++ tag ++ ">"
decreasing_by
  simp_wf
  have := List.sizeOf_lt_of_mem c.2
  omega

/-- State of an `HtmlReporter`: the report path and the children of the
`<body>` element (the only part of the tree that is ever mutated). -/
structure HtmlReporterState where
  report_path : String
  body_children : List Element

/-- Embedding of `HtmlReporter.__init__` (`reports.py` lines 155-163): fresh tree whose body
is empty. -/
def HtmlReporterState.init (report_path : String) : HtmlReporterState :=
  ⟨report_path, []⟩

/-- The `<meta charset="UTF-8">` element created by `HtmlReporter.__init__`. -/
def metaElement : Element := ⟨"meta", [("charset", "UTF-8")], none, []⟩

/-- The `<head><title>Translation Report</title></head>` element created by
`HtmlReporter.__init__`. -/
def headElement : Element :=
  ⟨"head", [], none, [⟨"title", [], some "Translation Report", []⟩]⟩

/-- The full `html_tree` of a reporter state: the fixed meta/head preamble
followed by the body. -/
def htmlTree (st : HtmlReporterState) : Element :=
  ⟨"html", [], none, [metaElement, headElement, ⟨"body", [], none, st.body_children⟩]⟩

/-- The titled section appended by `start_sent(idx)` (`reports.py` lines
165-170): a `div` holding an `h1` title for sentence `idx` and an empty
`main_content` div. -/
def sentSection (idx : Int) : Element :=
  ⟨"div", [], none,
    [ ⟨"h1", [], some ("Translation Report for Sentence " ++ toString idx), []⟩
    , ⟨"div", [("name", "main_content")], none, []⟩ ]⟩

/-- Embedding of `HtmlReporter.start_sent(idx)`: appends the titled section to the body. -/
def start_sent (st : HtmlReporterState) (idx : Int) : HtmlReporterState :=
  { st with body_children := st.body_children ++ [sentSection idx] }

/-- Serialization of everything before the body children: `<html>`, the meta
and head elements, and the opening `<body>` tag. -/
def htmlPreamble : String :=
  "<html>" ++ metaElement.render ++ headElement.render ++ "<body>"

/-- Embedding of `HtmlReporter.write_html_tree()` (`reports.py` lines 172-177): the file it
writes, as (path, content); the content is the serialized whole tree. -/
def write_html_tree (st : HtmlReporterState) : String × String :=
  (st.report_path ++ ".html", (htmlTree st).render)

/-! ## CharCutReporter (`reports.py` lines 92-146) -/

/-- A file written to disk, as (path, content). -/
structure FileWrite where
  path : String
  content : String
deriving DecidableEq

/-- State of a `CharCutReporter`: configuration plus the three accumulators.
`ref_sents` holds `Option String` because `create_report`'s `reference`
argument defaults to `None` and is appended unchecked. -/
structure CharCutState where
  match_size : Int
  alt_norm : Bool
  report_path : String
  hyp_sents : List String
  ref_sents : List (Option String)
  src_sents : List String
deriving DecidableEq

/-- Embedding of `CharCutReporter.create_report` (`reports.py` lines 112-121), with the
source string (joined vocab words) and target string (post-processed output)
abstracted as given strings: appends the source string unless the source is
speech, and always appends the hypothesis and the (optional) reference. -/
def CharCutState.create_report (st : CharCutState) (src_is_speech : Bool)
    (src_str trg_str : String) (reference : Option String) : CharCutState :=
  { st with
    src_sents := if src_is_speech then st.src_sents else st.src_sents ++ [src_str]
    hyp_sents := st.hyp_sents ++ [trg_str]
    ref_sents := st.ref_sents ++ [reference] }

/-- Python `"\n".join(xs)` on a list of strings. -/
def joinLines (xs : List String) : String := String.intercalate newline xs

/-- All entries of the list, provided none of them is `None`. -/
def allSome : List (Option String) → Option (List String)
  | [] => some []
  | none :: _ => none
  | some x :: xs => (allSome xs).map (x :: ·)

/-- Python `"\n".join(xs)` on a list that may contain `None`: a `None` entry
raises `TypeError`, modelled as `none`. -/
def joinOptLines (xs : List (Option String)) : Option String :=
  (allSome xs).map (String.intercalate newline)

/-- Result of `CharCutReporter.on_end_inference`: either a normal return with
the files written, the name of the HTML comparison page when the external
charcut routine was invoked, and the final reporter state; or an uncaught
exception, with the files touched before the raise. -/
inductive EndInferenceResult where
  | ok (writes : List FileWrite) (htmlOutput : Option String) (finalState : CharCutState)
  | raised (writes : List FileWrite)
deriving DecidableEq

/-- Embedding of `CharCutReporter.on_end_inference` (`reports.py` lines 123-146).  With no
accumulated hypotheses nothing happens.  Otherwise the joined hypotheses are
written to `{report_path}.charcut.tmp_c`; then the reference file is opened
(truncating it) and the join of `ref_sents` is attempted — a `None` reference
raises `TypeError` there, leaving the empty reference file behind; on success
the source file is written only when `src_sents` is non-empty, charcut is run
to produce `{report_path}.charcut.html`, and all accumulators are cleared. -/
def on_end_inference (st : CharCutState) : EndInferenceResult :=
  if st.hyp_sents.isEmpty then
    .ok [] none st
  else
    let hypWrite : FileWrite := ⟨st.report_path ++ ".charcut.tmp_c", joinLines st.hyp_sents⟩
    match joinOptLines st.ref_sents with
    | none => .raised [hypWrite, ⟨st.report_path ++ ".charcut.tmp_r", ""⟩]
    | some refContent =>
      .ok
        ([hypWrite, ⟨st.report_path ++ ".charcut.tmp_r", refContent⟩] ++
          (if st.src_sents.isEmpty then []
           else [⟨st.report_path ++ ".charcut.tmp_s", joinLines st.src_sents⟩]))
        (some (st.report_path ++ ".charcut.html"))
        { st with hyp_sents := [], ref_sents := [], src_sents := [] }

/-! ## plot_attention font selection (`plot.py` lines 20-21) -/

/-- The two `matplotlib.rc('font', size=...)` statements at the start of
`plot_attention`, as a function from the word lists and the ambient font size
to the font size in effect afterwards.  The source executes the `>100` check
first and the `>50` check second, each overwriting the font size when its
condition holds. -/
def plot_attention_font_size (src_words trg_words : List String) (ambient : Nat) : Nat :=
  let s := ambient
  let s := if 100 < (String.join src_words).length ∨ 100 < (String.join trg_words).length
    then 4 else s
  let s := if 50 < (String.join src_words).length ∨ 50 < (String.join trg_words).length
    then 7 else s
  s

/-! ## Concrete data used by witnesses -/

/-- Internal record used by the C9 witness: maps "a" to 1. -/
def innerRecord : Dict Nat := fun k => if k = "a" then some 1 else none

/-- External record used by the C9 witness: maps "a" to 2 and "b" to 3. -/
def outerRecord : Dict Nat :=
  fun k => if k = "a" then some 2 else if k = "b" then some 3 else none

/-- A source label whose length is 101. -/
def longLabel : String := ⟨List.replicate 101 'a'⟩

/-- A source label whose length is 51. -/
def midLabel : String := ⟨List.replicate 51 'a'⟩

/-! ## Helper lemmas -/

theorem Dict.update_empty {V : Type} (d : Dict V) : Dict.update Dict.empty d = d := by
  funext k
  simp only [Dict.update, Dict.empty]
  cases d k <;> rfl

theorem zipWith_update_replicate_empty {V : Type} (ds : List (Dict V)) :
    List.zipWith Dict.update (List.replicate ds.length Dict.empty) ds = ds := by
  induction ds with
  | nil => rfl
  | cons d ds ih => simp [List.replicate, Dict.update_empty, ih]

theorem foldl_add_sent {V : Type} (ds : List (Dict V)) (st : ReportableState V) :
    (ds.foldl add_sent_for_report st).sent_info_list = st.sent_info_list ++ ds := by
  induction ds generalizing st with
  | nil => simp
  | cons d ds ih => simp [add_sent_for_report, ih]

theorem segmentLoop_eq_specSegment (ds : List Int) (ws : List String)
    (temp : String) (acc : List (String × Bool)) :
    segmentLoop (ds.zip ws) temp acc = acc ++ specSegment ws ds temp := by
  induction ds generalizing ws temp acc with
  | nil =>
    cases ws <;> by_cases h : temp = "" <;> simp [segmentLoop, specSegment, h]
  | cons d ds ih =>
    cases ws with
    | nil => by_cases h : temp = "" <;> simp [segmentLoop, specSegment, h]
    | cons w ws =>
      have ih' : ∀ (ws : List String) (temp : String) (acc : List (String × Bool)),
          segmentLoop (List.zipWith Prod.mk ds ws) temp acc = acc ++ specSegment ws ds temp := by
        simpa [List.zip_eq_zipWith] using ih
      by_cases h0 : d = 0
      · simp [List.zip_cons_cons, segmentLoop, specSegment, h0, ih']
      · by_cases h1 : d = 1
        · simp [List.zip_cons_cons, segmentLoop, specSegment, h0, h1, ih']
        · by_cases h : temp = "" <;>
            simp [List.zip_cons_cons, segmentLoop, specSegment, h0, h1, h, ih']

/-! ## Claims -/

/-- C1: after N calls to `add_sent_for_report` starting from a fresh
`Reportable`, the collect event with an empty external context returns a
context that is exactly the list of the N added records in order (so the i-th
record holds exactly the key/value pairs of the i-th call), and the internal
queue is empty afterwards. -/
theorem collect_returns_queued_records {V : Type} (ds : List (Dict V)) :
    on_get_report_input (ds.foldl add_sent_for_report ⟨[]⟩) [] = some (ds, ⟨[]⟩) := by
  have h1 : (ds.foldl add_sent_for_report (⟨[]⟩ : ReportableState V)).sent_info_list = ds := by
    simpa using foldl_add_sent ds ⟨[]⟩
  simp [on_get_report_input, h1, zipWith_update_replicate_empty]

/-- C6: a second collect event immediately after a previous one, with no
intervening `add_sent_for_report` calls and no externally supplied context,
returns an empty context. -/
theorem second_collect_returns_empty {V : Type} (st : ReportableState V)
    (c : List (Dict V)) (st' : ReportableState V)
    (h : on_get_report_input st [] = some (c, st')) :
    on_get_report_input st' [] = some ([], st') := by
  have hst : st' = ⟨[]⟩ := by
    simp only [on_get_report_input, List.length_nil, gt_iff_lt, Nat.lt_irrefl, if_false,
      Option.some.injEq, Prod.mk.injEq] at h
    exact h.2.symm
  subst hst
  rfl

/-- Witness for C6 at a concrete one-record state. -/
theorem second_collect_returns_empty_witness :
    on_get_report_input (⟨[]⟩ : ReportableState Nat) [] = some ([], ⟨[]⟩) :=
  second_collect_returns_empty ⟨[Dict.empty]⟩ [Dict.empty] ⟨[]⟩ rfl

/-- C3: a collect event with a non-empty external context whose length differs
from the queue length fails the assertion (modelled as `none`), and
`apply_segmentation` on lists of different lengths fails its assertion; under
the equal-length preconditions neither assertion fires. -/
theorem length_mismatch_asserts {V : Type} (st : ReportableState V) (ctx : List (Dict V))
    (words : List String) (decisions : List Int)
    (hc : 0 < ctx.length) (hne : ctx.length ≠ st.sent_info_list.length)
    (hw : words.length ≠ decisions.length) :
    on_get_report_input st ctx = none ∧
    apply_segmentation words decisions = none ∧
    (∀ (ctx2 : List (Dict V)) (st2 : ReportableState V),
      ctx2.length = st2.sent_info_list.length → (on_get_report_input st2 ctx2).isSome) ∧
    (∀ (ws : List String) (dcs : List Int), ws.length = dcs.length →
      (apply_segmentation ws dcs).isSome) := by
  refine ⟨?_, ?_, ?_, ?_⟩
  · simp only [on_get_report_input, gt_iff_lt]
    rw [if_pos hc, if_neg hne]
  · simp only [apply_segmentation]
    rw [if_neg hw]
  · intro ctx2 st2 h
    simp only [on_get_report_input, gt_iff_lt]
    by_cases h0 : 0 < ctx2.length
    · rw [if_pos h0, if_pos h]; rfl
    · rw [if_neg h0]; rfl
  · intro ws dcs h
    simp [apply_segmentation, h]

/-- Witness for C3 at concrete mismatched inputs. -/
theorem length_mismatch_asserts_witness :
    on_get_report_input (⟨[]⟩ : ReportableState Nat) [Dict.empty] = none ∧
    apply_segmentation ["a"] [] = none ∧
    (∀ (ctx2 : List (Dict Nat)) (st2 : ReportableState Nat),
      ctx2.length = st2.sent_info_list.length → (on_get_report_input st2 ctx2).isSome) ∧
    (∀ (ws : List String) (dcs : List Int), ws.length = dcs.length →
      (apply_segmentation ws dcs).isSome) :=
  length_mismatch_asserts ⟨[]⟩ [Dict.empty] ["a"] [] (by decide) (by decide) (by decide)

/-- C2: on equal-length inputs `apply_segmentation` returns exactly the
segmentation described by the spec's three-way decision semantics with final
flush, and in particular the two concrete examples hold. -/
theorem apply_segmentation_spec (words : List String) (decisions : List Int)
    (h : words.length = decisions.length) :
    apply_segmentation words decisions = some (specSegment words decisions emptyStr) ∧
    apply_segmentation ["ab", "cd", "ef"] [0, 1, 2] = some [("abcd", false), ("ef", true)] ∧
    apply_segmentation ["a", "b"] [0, 0] = some [("ab", false)] := by
  refine ⟨?_, by decide, by decide⟩
  simp [apply_segmentation, h, segmentLoop_eq_specSegment]

/-- Witness for C2 at a concrete equal-length input. -/
theorem apply_segmentation_spec_witness :
    apply_segmentation ["x"] [5] = some (specSegment ["x"] [5] emptyStr) ∧
    apply_segmentation ["ab", "cd", "ef"] [0, 1, 2] = some [("abcd", false), ("ef", true)] ∧
    apply_segmentation ["a", "b"] [0, 0] = some [("ab", false)] :=
  apply_segmentation_spec ["x"] [5] rfl

/-- C9: when the collect event merges the queue into a non-empty external
context of matching length, a key defined by the queued (internal) record
overwrites the external context's value for that key, and a key the internal
record does not define keeps the external value (dict.update semantics). -/
theorem merge_internal_record_wins {V : Type} (st : ReportableState V)
    (ctx : List (Dict V)) (hc : 0 < ctx.length)
    (hlen : ctx.length = st.sent_info_list.length)
    (i : Nat) (hi : i < ctx.length) (k : String) (v : V) :
    ∃ out, on_get_report_input st ctx = some (out, ⟨[]⟩) ∧
      ∃ ho : i < out.length,
        ((st.sent_info_list.get ⟨i, hlen ▸ hi⟩) k = some v →
          (out.get ⟨i, ho⟩) k = some v) ∧
        ((st.sent_info_list.get ⟨i, hlen ▸ hi⟩) k = none →
          (out.get ⟨i, ho⟩) k = (ctx.get ⟨i, hi⟩) k) := by
  refine ⟨List.zipWith Dict.update ctx st.sent_info_list, ?_, ?_⟩
  · simp only [on_get_report_input, gt_iff_lt]
    rw [if_pos hc, if_pos hlen]
  · have hl : (List.zipWith Dict.update ctx st.sent_info_list).length = ctx.length := by
      simp [← hlen]
    refine ⟨hl ▸ hi, ?_, ?_⟩ <;> intro hk <;>
      simp only [List.get_eq_getElem] at hk <;>
      simp [List.get_eq_getElem, List.getElem_zipWith, Dict.update, hk]

/-- Witness for C9 at concrete one-record state and context. -/
theorem merge_internal_record_wins_witness :
    ∃ out, on_get_report_input (⟨[innerRecord]⟩ : ReportableState Nat) [outerRecord] =
        some (out, ⟨[]⟩) ∧
      ∃ ho : 0 < out.length,
        ((([innerRecord] : List (Dict Nat)).get ⟨0, by decide⟩) "a" = some 1 →
          (out.get ⟨0, ho⟩) "a" = some 1) ∧
        ((([innerRecord] : List (Dict Nat)).get ⟨0, by decide⟩) "a" = none →
          (out.get ⟨0, ho⟩) "a" = (([outerRecord] : List (Dict Nat)).get ⟨0, by decide⟩) "a") :=
  merge_internal_record_wins ⟨[innerRecord]⟩ [outerRecord] (by decide) rfl 0 (by decide) "a" 1

/-- C7: with no accumulated hypotheses, the end-of-inference event writes no
files, runs no external tool, and leaves the reporter state unchanged; since
the state is returned as-is, a second trigger is a no-op too. -/
theorem end_inference_noop_when_no_hyps (st : CharCutState) (h : st.hyp_sents = []) :
    on_end_inference st = .ok [] none st := by
  simp [on_end_inference, h]

/-- Witness for C7 at a concrete state with no hypotheses. -/
theorem end_inference_noop_when_no_hyps_witness :
    on_end_inference ⟨3, false, "p", [], [some "r"], ["s"]⟩ =
      .ok [] none ⟨3, false, "p", [], [some "r"], ["s"]⟩ :=
  end_inference_noop_when_no_hyps ⟨3, false, "p", [], [some "r"], ["s"]⟩ rfl

theorem allSome_eq_none {xs : List (Option String)} (h : none ∈ xs) :
    allSome xs = none := by
  induction xs with
  | nil => simp at h
  | cons x xs ih =>
    rcases List.mem_cons.mp h with h1 | h2
    · simp [← h1, allSome]
    · cases x <;> simp [allSome, ih h2]

theorem allSome_map_some (xs : List String) : allSome (xs.map some) = some xs := by
  induction xs with
  | nil => rfl
  | cons x xs ih => simp [allSome, ih]

/-- C10: with at least one accumulated hypothesis and a missing (None)
reference, the end-of-inference event raises while joining the references —
after writing the hypothesis file and truncating the reference file — and in
particular never reaches the charcut invocation that would produce the HTML
comparison. -/
theorem missing_reference_raises (st : CharCutState)
    (h1 : st.hyp_sents ≠ []) (h2 : none ∈ st.ref_sents) :
    on_end_inference st =
      .raised [⟨st.report_path ++ ".charcut.tmp_c", joinLines st.hyp_sents⟩,
               ⟨st.report_path ++ ".charcut.tmp_r", ""⟩] ∧
    ∀ (ws : List FileWrite) (html : Option String) (st2 : CharCutState),
      on_end_inference st ≠ .ok ws html st2 := by
  have hj : joinOptLines st.ref_sents = none := by
    simp [joinOptLines, allSome_eq_none h2]
  have heq : on_end_inference st =
      .raised [⟨st.report_path ++ ".charcut.tmp_c", joinLines st.hyp_sents⟩,
               ⟨st.report_path ++ ".charcut.tmp_r", ""⟩] := by
    simp [on_end_inference, h1, hj]
  exact ⟨heq, fun ws html st2 hcontra => by rw [heq] at hcontra; cases hcontra⟩

/-- Witness for C10 at a concrete state with one hypothesis and a missing
reference. -/
theorem missing_reference_raises_witness :
    on_end_inference ⟨3, false, "p", ["h"], [none], []⟩ =
      .raised [⟨"p.charcut.tmp_c", "h"⟩, ⟨"p.charcut.tmp_r", ""⟩] ∧
    ∀ (ws : List FileWrite) (html : Option String) (st2 : CharCutState),
      on_end_inference ⟨3, false, "p", ["h"], [none], []⟩ ≠ .ok ws html st2 :=
  missing_reference_raises ⟨3, false, "p", ["h"], [none], []⟩ (by decide) (by decide)

/-- C4 counterexample: a state with one hypothesis, one present reference, and
an empty source accumulator (the speech-input case) makes the end event write
only the hypothesis and reference files — no `.charcut.tmp_s` file — refuting
the claim that three files are always written when a hypothesis exists. -/
theorem end_inference_three_files_counterexample :
    on_end_inference ⟨3, false, "rep", ["h"], [some "r"], []⟩ =
      .ok [⟨"rep.charcut.tmp_c", "h"⟩, ⟨"rep.charcut.tmp_r", "r"⟩]
        (some "rep.charcut.html") ⟨3, false, "rep", [], [], []⟩ ∧
    "rep.charcut.tmp_s" ∉
      (([⟨"rep.charcut.tmp_c", "h"⟩, ⟨"rep.charcut.tmp_r", "r"⟩] : List FileWrite).map
        FileWrite.path) := by
  exact ⟨by decide, by decide⟩

/-- C4 as amended: with at least one hypothesis and every reference present,
the end event writes the hypothesis and reference files, writes the source
file exactly when the source accumulator is non-empty, produces the
`.charcut.html` comparison, and clears all accumulators. -/
theorem end_inference_writes_amended (st : CharCutState) (refs : List String)
    (h1 : st.hyp_sents ≠ []) (href : st.ref_sents = refs.map some) :
    on_end_inference st = .ok
      ([⟨st.report_path ++ ".charcut.tmp_c", joinLines st.hyp_sents⟩,
        ⟨st.report_path ++ ".charcut.tmp_r", joinLines refs⟩] ++
        (if st.src_sents.isEmpty then []
         else [⟨st.report_path ++ ".charcut.tmp_s", joinLines st.src_sents⟩]))
      (some (st.report_path ++ ".charcut.html"))
      { st with hyp_sents := [], ref_sents := [], src_sents := [] } := by
  have hj : joinOptLines st.ref_sents = some (joinLines refs) := by
    simp [joinOptLines, href, allSome_map_some, joinLines]
  simp [on_end_inference, h1, hj]

/-- Witness for the amended C4 at a concrete two-sentence state. -/
theorem end_inference_writes_amended_witness :
    on_end_inference ⟨1, true, "q", ["h1", "h2"], [some "r1", some "r2"], ["s1", "s2"]⟩ =
      .ok [⟨"q.charcut.tmp_c", "h1\nh2"⟩, ⟨"q.charcut.tmp_r", "r1\nr2"⟩,
           ⟨"q.charcut.tmp_s", "s1\ns2"⟩]
        (some "q.charcut.html") ⟨1, true, "q", [], [], []⟩ :=
  end_inference_writes_amended ⟨1, true, "q", ["h1", "h2"], [some "r1", some "r2"], ["s1", "s2"]⟩
    ["r1", "r2"] (by decide) rfl

/-- C5 (code bug): the font size that `plot_attention` installs is 7 both when
the joined labels exceed 100 characters and when they only exceed 50, because
the `>50` assignment runs after the `>100` assignment and overwrites it — the
smaller size 4 is never in effect. -/
theorem attention_font_size_not_adaptive :
    plot_attention_font_size [longLabel] [] 10 = 7 ∧
    plot_attention_font_size [midLabel] [] 10 = 7 := by
  exact ⟨by decide, by decide⟩

theorem foldl_append_acc (l : List String) (a : String) :
    l.foldl (· ++ ·) a = a ++ l.foldl (· ++ ·) "" := by
  induction l generalizing a with
  | nil => simp
  | cons x l ih =>
    rw [List.foldl_cons, List.foldl_cons, ih (a ++ x), ih ("" ++ x),
      String.empty_append, String.append_assoc]

theorem join_cons (s : String) (l : List String) :
    String.join (s :: l) = s ++ String.join l := by
  simp only [String.join, List.foldl_cons, String.empty_append]
  exact foldl_append_acc l s

/-- Unfolding of `Element.render` with the children's renders mapped
directly. -/
theorem Element.render_mk (tag : String) (attrs : List (String × String))
    (text : Option String) (children : List Element) :
    Element.render (.mk tag attrs text children) =
      "<" ++ tag ++ renderAttrs attrs ++ ">" ++ text.getD emptyStr ++
        String.join (children.map Element.render) ++ "</" ++ tag ++ ">" := by
  rw [Element.render, List.attach_map_val]

theorem foldl_start_sent (idxs : List Int) (st : HtmlReporterState) :
    idxs.foldl start_sent st =
      ⟨st.report_path, st.body_children ++ idxs.map sentSection⟩ := by
  induction idxs generalizing st with
  | nil => cases st; simp
  | cons i idxs ih =>
    rw [List.foldl_cons, ih]
    simp [start_sent]

/-- C8: folding `start_sent` over a list of sentence indices yields a body
holding exactly one titled section per call, in call order; further calls only
append (the tree grows monotonically); and the file written by
`write_html_tree` serializes the fixed preamble followed by each titled
section's serialization, in call order. -/
theorem start_sent_sections_in_order (path : String) (idxs : List Int) :
    (idxs.foldl start_sent (HtmlReporterState.init path)).body_children =
      idxs.map sentSection ∧
    (∀ more : List Int,
      ((idxs ++ more).foldl start_sent (HtmlReporterState.init path)).body_children =
        idxs.map sentSection ++ more.map sentSection) ∧
    write_html_tree (idxs.foldl start_sent (HtmlReporterState.init path)) =
      (path ++ ".html",
        htmlPreamble ++ String.join (idxs.map fun i => (sentSection i).render) ++
          "</body></html>") := by
  refine ⟨?_, ?_, ?_⟩
  · simp [foldl_start_sent, HtmlReporterState.init]
  · intro more
    simp [foldl_start_sent, HtmlReporterState.init]
  · rw [foldl_start_sent]
    simp only [write_html_tree, htmlTree, HtmlReporterState.init, List.nil_append]
    refine congrArg (Prod.mk _) ?_
    rw [Element.render_mk]
    simp only [List.map_cons, List.map_nil, join_cons, Element.render_mk, List.map_map]
    simp [htmlPreamble, renderAttrs, emptyStr, String.join, String.append_assoc,
      Function.comp_def]

end Xnmt
